import Mathlib

/-!
# Verification of the withdrawal activation service's transaction processors

A shallow embedding of the queue-driven transaction-processing engine of the
activation service: the multi-sig withdrawal worker and the raw-transaction
broadcast worker (`src/worker.js`), together with the cancel and intake
operations of the withdrawal manager (`src/services/withdrawal_manager.js`).

Database rows are modelled as Lean structures, the single row touched by a job
as an `Option` of the row structure, chain RPC calls as an oracle record of
`Except` results, and each handler as a pure function from oracle, attempt
counter and row to an outcome, the updated row, and the trace of chain calls.
-/

/-- Status values of a `WithdrawalRequest` row (stored as strings in the
database schema; the set of values written by the code). -/
inductive WStatus where
  | PENDING_SIGNATURE
  | PROCESSING
  | BROADCASTED
  | COMPLETED
  | CANCELLED
  | FAILED
  deriving DecidableEq, Repr

/-- The string stored in the database for each status value. -/
def WStatus.toDbString : WStatus → String
  | .PENDING_SIGNATURE => "PENDING_SIGNATURE"
  | .PROCESSING => "PROCESSING"
  | .BROADCASTED => "BROADCASTED"
  | .COMPLETED => "COMPLETED"
  | .CANCELLED => "CANCELLED"
  | .FAILED => "FAILED"

/-- A `WithdrawalRequest` row (model of the Prisma `WithdrawalRequest` model).
History entries are modelled by their status field, in creation order; the
intake creates a row with history `[PENDING_SIGNATURE]`. -/
structure WithdrawalRequest where
  requestId : String
  status : WStatus
  treasuryContractAddress : String
  destinationAddress : String
  tokenContractAddress : String
  amount : String
  partiallySignedTx : String
  txHash : Option String
  errorMessage : Option String
  history : List WStatus
  deriving DecidableEq, Repr

/-- Status values of a `RawTransactionBroadcast` row. -/
inductive RStatus where
  | PENDING
  | BROADCASTED
  | CONFIRMED
  | FAILED
  deriving DecidableEq, Repr

/-- A `RawTransactionBroadcast` row (model of the Prisma model; no history
sub-entity). -/
structure RawTransactionBroadcast where
  clientId : Option String
  rawTx : String
  txHash : Option String
  status : RStatus
  errorMessage : Option String
  deriving DecidableEq, Repr

/-- EIP-1559 fee estimate returned by `provider.getFeeData()`; amounts in wei
as naturals. -/
structure FeeData where
  maxFeePerGas : Nat
  maxPriorityFeePerGas : Nat
  deriving DecidableEq, Repr

/-- One chain RPC interaction performed by a worker, recorded in order. -/
inductive ChainEvent where
  | getDecimals (token : String)
  | getFeeData
  | transfer (token : String) (dest : String) (amount : Nat) (fees : FeeData)
  | wait (txHash : String) (confirmations : Nat)
  | broadcastRaw (rawTx : String)
  deriving DecidableEq, Repr

instance exceptDecEq {ε α : Type} [DecidableEq ε] [DecidableEq α] :
    DecidableEq (Except ε α)
  | Except.error a, Except.error b =>
    if h : a = b then isTrue (by rw [h])
    else isFalse (by intro hc; cases hc; exact h rfl)
  | Except.error _, Except.ok _ => isFalse (by intro hc; cases hc)
  | Except.ok _, Except.error _ => isFalse (by intro hc; cases hc)
  | Except.ok a, Except.ok b =>
    if h : a = b then isTrue (by rw [h])
    else isFalse (by intro hc; cases hc; exact h rfl)

/-- The chain RPC client as seen by one delivery of a withdrawal job: the
result each call would produce (an `Except.error` models a thrown error). -/
structure ChainOracle where
  decimals : Except String Nat
  feeData : Except String FeeData
  transfer : Except String String
  wait : Except String Unit
  deriving DecidableEq, Repr

/-- Fold a digit list into a natural number. -/
def digitsToNat (cs : List Char) : Nat :=
  cs.foldl (fun acc c => acc * 10 + (c.toNat - 48)) 0

/-- `true` iff every character is a decimal digit. -/
def allDigits (cs : List Char) : Bool :=
  cs.all fun c => 48 ≤ c.toNat && c.toNat ≤ 57

/-- Model of `ethers.parseUnits(value, decimals)` on decimal strings: scale a
decimal amount string into the token's minimal integer unit. `none` models the
error thrown on a malformed value or on more fractional digits than
`decimals`. -/
def parseUnits (value : String) (decimals : Nat) : Option Nat :=
  match value.toList.splitOn (Char.ofNat 46) with
  | [intPart] =>
    if intPart ≠ [] ∧ allDigits intPart then
      some (digitsToNat intPart * 10 ^ decimals)
    else none
  | [intPart, fracPart] =>
    if intPart ≠ [] ∧ allDigits intPart ∧ fracPart ≠ [] ∧ allDigits fracPart
        ∧ fracPart.length ≤ decimals then
      some (digitsToNat intPart * 10 ^ decimals
        + digitsToNat fracPart * 10 ^ (decimals - fracPart.length))
    else none
  | _ => none

/-- Result of one delivery of a withdrawal job: whether the handler returned
normally or threw, the row as left in the store, and the chain calls made. -/
structure WDeliveryResult where
  outcome : Except String Unit
  row : Option WithdrawalRequest
  trace : List ChainEvent
  deriving DecidableEq, Repr

/-- The multi-sig withdrawal job handler (the processor function passed to the
`withdrawal-processing` worker in `src/worker.js`): load the row; skip as a
successful no-op when absent or already COMPLETED/CANCELLED; on the first
attempt write PROCESSING, clear the error message and append one history
entry; fetch token decimals, scale the amount, fetch fresh fees, submit the
transfer, persist BROADCASTED with the returned hash, wait for one
confirmation, persist COMPLETED; any error thrown by a chain call is
re-thrown after the store writes made so far. -/
def multiSigWorkerHandler (oracle : ChainOracle) (attemptsMade : Nat)
    (row : Option WithdrawalRequest) : WDeliveryResult :=
  match row with
  | none => ⟨Except.ok (), none, []⟩
  | some request =>
    if request.status = WStatus.COMPLETED ∨ request.status = WStatus.CANCELLED then
      ⟨Except.ok (), some request, []⟩
    else
      let afterFirst : WithdrawalRequest :=
        if attemptsMade = 0 then
          { request with
              status := WStatus.PROCESSING
              errorMessage := none
              history := request.history ++ [WStatus.PROCESSING] }
        else request
      match oracle.decimals with
      | Except.error e =>
        ⟨Except.error e, some afterFirst,
          [ChainEvent.getDecimals request.tokenContractAddress]⟩
      | Except.ok decimals =>
        match parseUnits request.amount decimals with
        | none =>
          ⟨Except.error "invalid decimal value", some afterFirst,
            [ChainEvent.getDecimals request.tokenContractAddress]⟩
        | some tokenAmount =>
          match oracle.feeData with
          | Except.error e =>
            ⟨Except.error e, some afterFirst,
              [ChainEvent.getDecimals request.tokenContractAddress,
               ChainEvent.getFeeData]⟩
          | Except.ok feeData =>
            match oracle.transfer with
            | Except.error e =>
              ⟨Except.error e, some afterFirst,
                [ChainEvent.getDecimals request.tokenContractAddress,
                 ChainEvent.getFeeData,
                 ChainEvent.transfer request.tokenContractAddress
                   request.destinationAddress tokenAmount feeData]⟩
            | Except.ok txHash =>
              let afterBroadcast : WithdrawalRequest :=
                { afterFirst with
                    status := WStatus.BROADCASTED
                    txHash := some txHash
                    history := afterFirst.history ++ [WStatus.BROADCASTED] }
              match oracle.wait with
              | Except.error e =>
                ⟨Except.error e, some afterBroadcast,
                  [ChainEvent.getDecimals request.tokenContractAddress,
                   ChainEvent.getFeeData,
                   ChainEvent.transfer request.tokenContractAddress
                     request.destinationAddress tokenAmount feeData,
                   ChainEvent.wait txHash 1]⟩
              | Except.ok _ =>
                ⟨Except.ok (),
                  some { afterBroadcast with
                      status := WStatus.COMPLETED
                      history := afterBroadcast.history ++ [WStatus.COMPLETED] },
                  [ChainEvent.getDecimals request.tokenContractAddress,
                   ChainEvent.getFeeData,
                   ChainEvent.transfer request.tokenContractAddress
                     request.destinationAddress tokenAmount feeData,
                   ChainEvent.wait txHash 1]⟩

/-- The chain RPC client as seen by one delivery of a raw-broadcast job. -/
structure RawOracle where
  broadcastResult : Except String String
  wait : Except String Unit
  deriving DecidableEq, Repr

/-- Result of one delivery of a raw-broadcast job. -/
structure RDeliveryResult where
  outcome : Except String Unit
  row : Option RawTransactionBroadcast
  trace : List ChainEvent
  deriving DecidableEq, Repr

/-- The raw-transaction broadcast job handler (the processor function passed
to the `raw-tx-broadcasting` worker in `src/worker.js`): load the row; skip as
a successful no-op when absent or not PENDING; broadcast the stored raw
transaction, persist BROADCASTED with the returned hash, wait for one
confirmation, persist CONFIRMED; errors are re-thrown. -/
def rawTxBroadcastHandler (oracle : RawOracle)
    (row : Option RawTransactionBroadcast) : RDeliveryResult :=
  match row with
  | none => ⟨Except.ok (), none, []⟩
  | some request =>
    if request.status ≠ RStatus.PENDING then
      ⟨Except.ok (), some request, []⟩
    else
      match oracle.broadcastResult with
      | Except.error e =>
        ⟨Except.error e, some request, [ChainEvent.broadcastRaw request.rawTx]⟩
      | Except.ok txHash =>
        let afterBroadcast : RawTransactionBroadcast :=
          { request with status := RStatus.BROADCASTED, txHash := some txHash }
        match oracle.wait with
        | Except.error e =>
          ⟨Except.error e, some afterBroadcast,
            [ChainEvent.broadcastRaw request.rawTx, ChainEvent.wait txHash 1]⟩
        | Except.ok _ =>
          ⟨Except.ok (),
            some { afterBroadcast with status := RStatus.CONFIRMED },
            [ChainEvent.broadcastRaw request.rawTx, ChainEvent.wait txHash 1]⟩

/-- Payload handed to `alertingService.sendAlert` by a worker's failed-event
listener. -/
structure AlertPayload where
  title : String
  jobId : Nat
  databaseId : Nat
  attempts : Nat
  error : String
  deriving DecidableEq, Repr

/-- The `multiSigWorker.on` failed listener (`src/worker.js`): unconditionally
update the row to FAILED with the error message and one FAILED history entry,
then send one alert reporting `attemptsMade + 1` attempts. The row update has
no terminal-state guard. -/
def multiSigWorkerOnFailed (jobId dbId : Nat) (attemptsMade : Nat)
    (errMsg : String) (row : Option WithdrawalRequest) :
    Option WithdrawalRequest × AlertPayload :=
  (row.map fun r =>
      { r with
          status := WStatus.FAILED
          errorMessage := some errMsg
          history := r.history ++ [WStatus.FAILED] },
   { title := "Multi-Sig Withdrawal Job Failed", jobId := jobId,
     databaseId := dbId, attempts := attemptsMade + 1, error := errMsg })

/-- The `rawTxBroadcastWorker.on` failed listener (`src/worker.js`):
unconditionally update the row to FAILED with the error message, then send one
alert reporting `attemptsMade + 1` attempts. -/
def rawTxWorkerOnFailed (jobId dbId : Nat) (attemptsMade : Nat)
    (errMsg : String) (row : Option RawTransactionBroadcast) :
    Option RawTransactionBroadcast × AlertPayload :=
  (row.map fun r =>
      { r with status := RStatus.FAILED, errorMessage := some errMsg },
   { title := "Raw Transaction Broadcast Job Failed", jobId := jobId,
     databaseId := dbId, attempts := attemptsMade + 1, error := errMsg })

/-- A single-quote character, used in the stored conflict message. -/
def quoteChar : String := (Char.ofNat 39).toString

/-- `WithdrawalManager.cancelRequest` (`src/services/withdrawal_manager.js`)
acting on the row found by `requestId`: throw when absent; throw a conflict
when the status is not PENDING_SIGNATURE, leaving the row unchanged; otherwise
update to CANCELLED with one history entry. Returns the thrown-or-returned
value and the row as left in the store. -/
def cancelRequest (row : Option WithdrawalRequest) :
    Except String WithdrawalRequest × Option WithdrawalRequest :=
  match row with
  | none => (Except.error "Request not found.", none)
  | some request =>
    if request.status ≠ WStatus.PENDING_SIGNATURE then
      (Except.error ("Cannot cancel request. Status is already "
        ++ quoteChar ++ request.status.toDbString ++ quoteChar ++ "."),
       some request)
    else
      let updated : WithdrawalRequest :=
        { request with
            status := WStatus.CANCELLED
            history := request.history ++ [WStatus.CANCELLED] }
      (Except.ok updated, some updated)

/-- The validated intake payload of `WithdrawalManager.processNewRequest`. -/
structure WithdrawalRequestInput where
  request_id : String
  treasury_contract_address : String
  destination_address : String
  token_contract_address : String
  amount : String
  partially_signed_tx : String
  deriving DecidableEq, Repr

/-- `WithdrawalManager.processNewRequest`: reject a duplicate request id,
otherwise create the row with default status PENDING_SIGNATURE, the
partially-signed payload persisted verbatim, and one initial history entry. -/
def processNewRequest (data : WithdrawalRequestInput)
    (existingRequest : Option WithdrawalRequest) :
    Except String WithdrawalRequest :=
  match existingRequest with
  | some _ =>
    Except.error "Duplicate request_id. This request has already been submitted."
  | none =>
    Except.ok
      { requestId := data.request_id
        status := WStatus.PENDING_SIGNATURE
        treasuryContractAddress := data.treasury_contract_address
        destinationAddress := data.destination_address
        tokenContractAddress := data.token_contract_address
        amount := data.amount
        partiallySignedTx := data.partially_signed_tx
        txHash := none
        errorMessage := none
        history := [WStatus.PENDING_SIGNATURE] }

/-- Worker option `attempts: 5` of the `withdrawal-processing` worker. -/
def multiSigWorkerAttempts : Nat := 5

/-- Worker option `backoff: { type: exponential, delay: 10000 }` of the
`withdrawal-processing` worker (milliseconds). -/
def multiSigWorkerBackoffDelay : Nat := 10000

/-- Worker option `attempts: 3` of the `raw-tx-broadcasting` worker. -/
def rawTxWorkerAttempts : Nat := 3

/-- Worker option `backoff: { type: exponential, delay: 5000 }` of the
`raw-tx-broadcasting` worker (milliseconds). -/
def rawTxWorkerBackoffDelay : Nat := 5000

/-- Outcome of the broker driving one job to success or exhaustion: the final
store state, how many times the job was delivered, the backoff delays applied
between deliveries, the alerts sent by the failed listener, and whether some
delivery returned normally. -/
structure BrokerResult (σ : Type) where
  state : σ
  deliveries : Nat
  delays : List Nat
  alerts : List AlertPayload
  succeeded : Bool
  deriving DecidableEq, Repr

/-- Modelled from the spec: the Job Queue / Broker is an external collaborator
(BullMQ) whose delivery algorithm is not part of this repository; the spec
requires delivery with an attempt counter exposed as attempts made so far,
exponential backoff `delay * 2 ^ k` after the `k`-th failed delivery, up to a
configured maximum number of attempts, and a terminal failed notification
fired exactly once on exhaustion, carrying the job of the final delivery.
`deliver k s` runs one delivery with `attemptsMade = k`; `onFailed` is the
failed-event listener. -/
def brokerRunAux {σ : Type}
    (deliver : Nat → σ → Except String Unit × σ)
    (onFailed : Nat → String → σ → σ × AlertPayload)
    (delay : Nat) : Nat → Nat → σ → BrokerResult σ
  | _, 0, s => ⟨s, 0, [], [], false⟩
  | k, r + 1, s =>
    match (deliver k s).1 with
    | Except.ok _ => ⟨(deliver k s).2, k + 1, [], [], true⟩
    | Except.error e =>
      if r = 0 then
        let p := onFailed k e (deliver k s).2
        ⟨p.1, k + 1, [], [p.2], false⟩
      else
        let res := brokerRunAux deliver onFailed delay (k + 1) r (deliver k s).2
        ⟨res.state, res.deliveries, delay * 2 ^ k :: res.delays,
         res.alerts, res.succeeded⟩

/-- Modelled from the spec: run one job lineage from its first delivery
(`attemptsMade = 0`) under the broker contract with the given maximum attempt
count and base backoff delay. -/
def brokerRun {σ : Type}
    (deliver : Nat → σ → Except String Unit × σ)
    (onFailed : Nat → String → σ → σ × AlertPayload)
    (attempts delay : Nat) (s : σ) : BrokerResult σ :=
  brokerRunAux deliver onFailed delay 0 attempts s

/-- The multi-sig withdrawal worker's per-delivery action as a state
transformer on the referenced row, with the chain client of attempt `k` given
by `oracles k`. -/
def withdrawalDeliver (oracles : Nat → ChainOracle) :
    Nat → Option WithdrawalRequest → Except String Unit × Option WithdrawalRequest :=
  fun k row =>
    let d := multiSigWorkerHandler (oracles k) k row
    (d.outcome, d.row)

/-- One whole lineage of a withdrawal job under the broker contract: repeated
deliveries of `multiSigWorkerHandler` with the failed listener
`multiSigWorkerOnFailed` on exhaustion. -/
def runWithdrawalEpisode (jobId dbId : Nat) (oracles : Nat → ChainOracle)
    (attempts delay : Nat) (row : Option WithdrawalRequest) :
    BrokerResult (Option WithdrawalRequest) :=
  brokerRun (withdrawalDeliver oracles) (multiSigWorkerOnFailed jobId dbId)
    attempts delay row

/-- The store state reached after `n` deliveries starting at attempt counter
`k`. -/
def iterDeliver {σ : Type} (deliver : Nat → σ → Except String Unit × σ)
    (k : Nat) : Nat → σ → σ
  | 0, s => s
  | n + 1, s => iterDeliver deliver (k + 1) n (deliver k s).2

/-- Replace only the `partiallySignedTx` field of a row. -/
def setPartiallySignedTx (p : String) (r : WithdrawalRequest) :
    WithdrawalRequest :=
  { r with partiallySignedTx := p }

/-- The number of PROCESSING audit entries recorded for the (optional) row. -/
def processingCount : Option WithdrawalRequest → Nat
  | none => 0
  | some r => r.history.count WStatus.PROCESSING

/-- The consecutive pairs of a status history: every persisted status write
also appends one history entry carrying the written status, so these pairs are
exactly the status transitions taken on the row. -/
def historyTransitions : List WStatus → List (WStatus × WStatus)
  | [] => []
  | [_] => []
  | a :: b :: rest => (a, b) :: historyTransitions (b :: rest)

/-- The transition edges asserted by the spec's monotonicity property. -/
def specEdges : List (WStatus × WStatus) :=
  [(WStatus.PENDING_SIGNATURE, WStatus.PROCESSING),
   (WStatus.PENDING_SIGNATURE, WStatus.CANCELLED),
   (WStatus.PROCESSING, WStatus.BROADCASTED),
   (WStatus.PROCESSING, WStatus.FAILED),
   (WStatus.BROADCASTED, WStatus.COMPLETED)]

/-- The transition edges the code can actually take: the spec's edges plus a
re-broadcast after a failed confirmation wait (BROADCASTED → BROADCASTED on a
retry) and exhaustion while BROADCASTED (BROADCASTED → FAILED). -/
def codeEdges : List (WStatus × WStatus) :=
  specEdges ++ [(WStatus.BROADCASTED, WStatus.BROADCASTED),
    (WStatus.BROADCASTED, WStatus.FAILED)]

/-- Audit-log well-formedness of a row: the last history entry is the current
status and every consecutive pair of the history lies in `codeEdges`. -/
def WFRow (r : WithdrawalRequest) : Prop :=
  r.history.getLast? = some r.status
    ∧ ∀ t ∈ historyTransitions r.history, t ∈ codeEdges

instance (r : WithdrawalRequest) : Decidable (WFRow r) := by
  unfold WFRow; infer_instance

/-- A concrete freshly-created withdrawal row, as the intake writes it. -/
def sampleIntakeRow : WithdrawalRequest :=
  { requestId := "bank-tx-id-12345-abcdef"
    status := WStatus.PENDING_SIGNATURE
    treasuryContractAddress := "0xMultiSigWalletAddress"
    destinationAddress := "0xCustomerExternalWalletAddress"
    tokenContractAddress := "0xUsdtContractAddress"
    amount := "1500.00"
    partiallySignedTx := "0xBankSignatureData"
    txHash := none
    errorMessage := none
    history := [WStatus.PENDING_SIGNATURE] }

/-- A concrete row that has completed its lifecycle. -/
def sampleCompletedRow : WithdrawalRequest :=
  { sampleIntakeRow with
      status := WStatus.COMPLETED
      txHash := some "0xdeadbeef"
      history := [WStatus.PENDING_SIGNATURE, WStatus.PROCESSING,
        WStatus.BROADCASTED, WStatus.COMPLETED] }

/-- A concrete cancelled row. -/
def sampleCancelledRow : WithdrawalRequest :=
  { sampleIntakeRow with
      status := WStatus.CANCELLED
      history := [WStatus.PENDING_SIGNATURE, WStatus.CANCELLED] }

/-- A concrete PENDING raw-broadcast row. -/
def sampleRawRow : RawTransactionBroadcast :=
  { clientId := some "client-001"
    rawTx := "0xf86c0a85"
    txHash := none
    status := RStatus.PENDING
    errorMessage := none }

/-- A chain oracle on which every call fails. -/
def downOracle : ChainOracle :=
  ⟨Except.error "rpc down", Except.error "rpc down",
   Except.error "rpc down", Except.error "rpc down"⟩

/-- A chain oracle whose transfer succeeds but whose confirmation wait times
out. -/
def waitFailOracle : ChainOracle :=
  ⟨Except.ok 6, Except.ok ⟨2000000000, 1500000000⟩,
   Except.ok "0xbroadcast", Except.error "confirmation timeout"⟩

theorem iterDeliver_succ {σ : Type} (deliver : Nat → σ → Except String Unit × σ)
    (k n : Nat) (s : σ) :
    iterDeliver deliver k (n + 1) s = iterDeliver deliver (k + 1) n (deliver k s).2 := rfl

theorem rangeShiftPow (delay k r : Nat) :
    delay * 2 ^ k :: (List.range r).map (fun i => delay * 2 ^ (k + 1 + i)) =
      (List.range (r + 1)).map (fun i => delay * 2 ^ (k + i)) := by
  rw [List.range_succ_eq_map, List.map_cons, List.map_map]
  refine congrArg₂ List.cons (by simp) ?_
  apply List.map_congr_left
  intro a _
  have h : k + 1 + a = k + Nat.succ a := by omega
  simp [Function.comp, h]

theorem brokerRunAux_step {σ : Type}
    (deliver : Nat → σ → Except String Unit × σ)
    (onFailed : Nat → String → σ → σ × AlertPayload)
    (delay k r : Nat) (s : σ) :
    brokerRunAux deliver onFailed delay k (r + 1) s =
      match (deliver k s).1 with
      | Except.ok _ => ⟨(deliver k s).2, k + 1, [], [], true⟩
      | Except.error e =>
        if r = 0 then
          let p := onFailed k e (deliver k s).2
          ⟨p.1, k + 1, [], [p.2], false⟩
        else
          let res := brokerRunAux deliver onFailed delay (k + 1) r (deliver k s).2
          ⟨res.state, res.deliveries, delay * 2 ^ k :: res.delays,
           res.alerts, res.succeeded⟩ := rfl

/-- When every delivery along the run fails, the broker makes all `r + 1`
remaining deliveries, applies the exponential backoff schedule between them,
and fires the failed listener exactly once on the state after the final
delivery, carrying the final delivery's attempt counter. -/
theorem brokerRunAux_allFail {σ : Type}
    (deliver : Nat → σ → Except String Unit × σ)
    (onFailed : Nat → String → σ → σ × AlertPayload)
    (delay : Nat) (m : Nat → String) :
    ∀ (r k : Nat) (s : σ),
      (∀ i, i ≤ r →
        (deliver (k + i) (iterDeliver deliver k i s)).1 = Except.error (m (k + i))) →
      brokerRunAux deliver onFailed delay k (r + 1) s =
        ⟨(onFailed (k + r) (m (k + r)) (iterDeliver deliver k (r + 1) s)).1,
         k + r + 1,
         (List.range r).map (fun i => delay * 2 ^ (k + i)),
         [(onFailed (k + r) (m (k + r)) (iterDeliver deliver k (r + 1) s)).2],
         false⟩
  | 0, k, s, hf => by
    have h0 := hf 0 (Nat.le_refl 0)
    simp only [Nat.add_zero, iterDeliver] at h0
    simp [brokerRunAux, h0, iterDeliver]
  | r + 1, k, s, hf => by
    have h0 := hf 0 (Nat.zero_le _)
    simp only [Nat.add_zero, iterDeliver] at h0
    have ih := brokerRunAux_allFail deliver onFailed delay m r (k + 1)
      ((deliver k s).2) (fun i hi => by
        have h := hf (i + 1) (by omega)
        have e : k + (i + 1) = k + 1 + i := by omega
        rw [e] at h
        simpa [iterDeliver] using h)
    rw [brokerRunAux_step]
    simp only [h0]
    rw [if_neg (Nat.succ_ne_zero r), ih]
    dsimp only
    have e2 : iterDeliver deliver k (r + 1 + 1) s =
        iterDeliver deliver (k + 1) (r + 1) (deliver k s).2 := rfl
    rw [e2]
    have e1 : k + (r + 1) = k + 1 + r := by omega
    rw [e1, rangeShiftPow]

/-- C1: a job failing on every attempt is delivered exactly 5 times by the
withdrawal broker configuration (attempts 5, exponential backoff base 10000
milliseconds), with backoff delays 10s, 20s, 40s, 80s between attempts and
exactly one terminal exhaustion notification; under the raw-broadcast
configuration (attempts 3, base 5000 milliseconds), exactly 3 deliveries
with delays 5s, 10s and one exhaustion notification. -/
theorem retry_backoff_contract {σ : Type}
    (deliver : Nat → σ → Except String Unit × σ)
    (onFailed : Nat → String → σ → σ × AlertPayload)
    (m : Nat → String) (s : σ)
    (hf : ∀ k t, (deliver k t).1 = Except.error (m k)) :
    ((brokerRun deliver onFailed multiSigWorkerAttempts
        multiSigWorkerBackoffDelay s).deliveries = 5
      ∧ (brokerRun deliver onFailed multiSigWorkerAttempts
          multiSigWorkerBackoffDelay s).delays = [10000, 20000, 40000, 80000]
      ∧ (brokerRun deliver onFailed multiSigWorkerAttempts
          multiSigWorkerBackoffDelay s).alerts.length = 1
      ∧ (brokerRun deliver onFailed multiSigWorkerAttempts
          multiSigWorkerBackoffDelay s).succeeded = false)
    ∧ ((brokerRun deliver onFailed rawTxWorkerAttempts
        rawTxWorkerBackoffDelay s).deliveries = 3
      ∧ (brokerRun deliver onFailed rawTxWorkerAttempts
          rawTxWorkerBackoffDelay s).delays = [5000, 10000]
      ∧ (brokerRun deliver onFailed rawTxWorkerAttempts
          rawTxWorkerBackoffDelay s).alerts.length = 1
      ∧ (brokerRun deliver onFailed rawTxWorkerAttempts
          rawTxWorkerBackoffDelay s).succeeded = false) := by
  have h5 := brokerRunAux_allFail deliver onFailed 10000 m 4 0 s
    (fun i _ => hf _ _)
  have h3 := brokerRunAux_allFail deliver onFailed 5000 m 2 0 s
    (fun i _ => hf _ _)
  unfold brokerRun multiSigWorkerAttempts multiSigWorkerBackoffDelay
    rawTxWorkerAttempts rawTxWorkerBackoffDelay
  rw [show (5 : Nat) = 4 + 1 from rfl, show (3 : Nat) = 2 + 1 from rfl, h5, h3]
  refine ⟨⟨rfl, ?_, rfl, rfl⟩, ⟨rfl, ?_, rfl, rfl⟩⟩
  · exact (by decide :
      (List.range 4).map (fun i => 10000 * 2 ^ (0 + i)) = [10000, 20000, 40000, 80000])
  · exact (by decide :
      (List.range 2).map (fun i => 5000 * 2 ^ (0 + i)) = [5000, 10000])

/-- Witness for `retry_backoff_contract` at an always-failing delivery
action. -/
theorem retry_backoff_contract_witness :
    (brokerRun (fun _ (s : Unit) => (Except.error "boom", s))
        (fun k e s => (s, ⟨"Multi-Sig Withdrawal Job Failed", 1, 1, k + 1, e⟩))
        multiSigWorkerAttempts multiSigWorkerBackoffDelay ()).deliveries = 5
      ∧ (brokerRun (fun _ (s : Unit) => (Except.error "boom", s))
          (fun k e s => (s, ⟨"Multi-Sig Withdrawal Job Failed", 1, 1, k + 1, e⟩))
          multiSigWorkerAttempts multiSigWorkerBackoffDelay ()).delays =
        [10000, 20000, 40000, 80000] :=
  ⟨(retry_backoff_contract _ _ (fun _ => "boom") () (fun _ _ => rfl)).1.1,
   (retry_backoff_contract _ _ (fun _ => "boom") () (fun _ _ => rfl)).1.2.1⟩

/-- C5: a delivery of a withdrawal job whose referenced request is absent or
already COMPLETED or CANCELLED returns normally, performs no chain call, and
leaves the store exactly as it was. -/
theorem delivery_terminal_noop (oracle : ChainOracle) (k : Nat)
    (row : Option WithdrawalRequest)
    (h : row = none ∨ ∃ r, row = some r ∧
      (r.status = WStatus.COMPLETED ∨ r.status = WStatus.CANCELLED)) :
    multiSigWorkerHandler oracle k row = ⟨Except.ok (), row, []⟩ := by
  rcases h with h | ⟨r, rfl, hr⟩
  · subst h; rfl
  · simp only [multiSigWorkerHandler]
    rw [if_pos hr]

/-- Witness for `delivery_terminal_noop`: a redelivered job on a COMPLETED
row, and one referencing a missing row, are successful no-ops. -/
theorem delivery_terminal_noop_witness :
    multiSigWorkerHandler downOracle 2 (some sampleCompletedRow) =
      ⟨Except.ok (), some sampleCompletedRow, []⟩
    ∧ multiSigWorkerHandler downOracle 0 none = ⟨Except.ok (), none, []⟩ :=
  ⟨delivery_terminal_noop downOracle 2 (some sampleCompletedRow)
      (Or.inr ⟨sampleCompletedRow, rfl, Or.inl rfl⟩),
   delivery_terminal_noop downOracle 0 none (Or.inl rfl)⟩

/-- C2 counterexample: the terminal-failure listener mutates a COMPLETED row —
it overwrites its status with FAILED (and appends history), so the claim that
no processor operation mutates a COMPLETED or CANCELLED row is false. -/
theorem terminal_row_immutable_cex :
    sampleCompletedRow.status = WStatus.COMPLETED
      ∧ ((multiSigWorkerOnFailed 7 3 4 "late failure"
            (some sampleCompletedRow)).1).map WithdrawalRequest.status =
          some WStatus.FAILED := by
  decide

/-- C2 amended: a COMPLETED or CANCELLED row is never mutated by the
per-delivery handler, but the terminal-failure listener has no terminal-state
guard: applied to such a row it sets status FAILED, stores the error message
and appends a FAILED history entry. -/
theorem terminal_row_guard_amended (oracle : ChainOracle)
    (k jobId dbId : Nat) (err : String) (r : WithdrawalRequest)
    (h : r.status = WStatus.COMPLETED ∨ r.status = WStatus.CANCELLED) :
    multiSigWorkerHandler oracle k (some r) = ⟨Except.ok (), some r, []⟩
      ∧ (multiSigWorkerOnFailed jobId dbId k err (some r)).1 =
        some { r with
            status := WStatus.FAILED
            errorMessage := some err
            history := r.history ++ [WStatus.FAILED] } := by
  constructor
  · simp only [multiSigWorkerHandler]
    rw [if_pos h]
  · rfl

/-- Witness for `terminal_row_guard_amended` on a concrete CANCELLED row. -/
theorem terminal_row_guard_amended_witness :
    multiSigWorkerHandler downOracle 1 (some sampleCancelledRow) =
        ⟨Except.ok (), some sampleCancelledRow, []⟩
      ∧ (multiSigWorkerOnFailed 9 4 1 "boom" (some sampleCancelledRow)).1 =
        some { sampleCancelledRow with
            status := WStatus.FAILED
            errorMessage := some "boom"
            history := sampleCancelledRow.history ++ [WStatus.FAILED] } :=
  terminal_row_guard_amended downOracle 1 9 4 "boom" sampleCancelledRow
    (Or.inr rfl)

/-- C8: cancelling succeeds exactly on a PENDING_SIGNATURE row, setting status
CANCELLED with one history entry; a missing row or any other status raises a
descriptive error and leaves the row unchanged — never a silent success. -/
theorem cancel_guard (r : WithdrawalRequest) :
    cancelRequest none = (Except.error "Request not found.", none)
      ∧ (r.status = WStatus.PENDING_SIGNATURE →
          cancelRequest (some r) =
            (Except.ok { r with
                status := WStatus.CANCELLED
                history := r.history ++ [WStatus.CANCELLED] },
             some { r with
                status := WStatus.CANCELLED
                history := r.history ++ [WStatus.CANCELLED] }))
      ∧ (r.status ≠ WStatus.PENDING_SIGNATURE →
          cancelRequest (some r) =
            (Except.error ("Cannot cancel request. Status is already "
                ++ quoteChar ++ r.status.toDbString ++ quoteChar ++ "."),
             some r)) := by
  refine ⟨rfl, fun hs => ?_, fun hs => ?_⟩
  · simp [cancelRequest, hs]
  · simp [cancelRequest, hs]

/-- Witness for `cancel_guard`: cancel succeeds on the fresh intake row and is
a conflict on a completed one. -/
theorem cancel_guard_witness :
    cancelRequest (some sampleIntakeRow) =
      (Except.ok { sampleIntakeRow with
          status := WStatus.CANCELLED
          history := sampleIntakeRow.history ++ [WStatus.CANCELLED] },
       some { sampleIntakeRow with
          status := WStatus.CANCELLED
          history := sampleIntakeRow.history ++ [WStatus.CANCELLED] })
    ∧ cancelRequest (some sampleCompletedRow) =
      (Except.error ("Cannot cancel request. Status is already "
          ++ quoteChar ++ sampleCompletedRow.status.toDbString ++ quoteChar ++ "."),
       some sampleCompletedRow) :=
  ⟨(cancel_guard sampleIntakeRow).2.1 rfl,
   (cancel_guard sampleCompletedRow).2.2 (by decide)⟩

/-- C9: a raw-broadcast delivery no-ops when the row is missing or not
PENDING; otherwise it broadcasts the stored raw transaction, persists
BROADCASTED with the returned hash, waits one confirmation and persists
CONFIRMED; every chain error is rethrown with the store writes made so far
kept. -/
theorem raw_broadcast_delivery (oracle : RawOracle)
    (r : RawTransactionBroadcast) :
    rawTxBroadcastHandler oracle none = ⟨Except.ok (), none, []⟩
      ∧ (r.status ≠ RStatus.PENDING →
          rawTxBroadcastHandler oracle (some r) = ⟨Except.ok (), some r, []⟩)
      ∧ (r.status = RStatus.PENDING →
          (∀ e, oracle.broadcastResult = Except.error e →
            rawTxBroadcastHandler oracle (some r) =
              ⟨Except.error e, some r, [ChainEvent.broadcastRaw r.rawTx]⟩)
          ∧ (∀ tx e, oracle.broadcastResult = Except.ok tx →
              oracle.wait = Except.error e →
              rawTxBroadcastHandler oracle (some r) =
                ⟨Except.error e,
                 some { r with status := RStatus.BROADCASTED, txHash := some tx },
                 [ChainEvent.broadcastRaw r.rawTx, ChainEvent.wait tx 1]⟩)
          ∧ (∀ tx, oracle.broadcastResult = Except.ok tx →
              oracle.wait = Except.ok () →
              rawTxBroadcastHandler oracle (some r) =
                ⟨Except.ok (),
                 some { r with status := RStatus.CONFIRMED, txHash := some tx },
                 [ChainEvent.broadcastRaw r.rawTx, ChainEvent.wait tx 1]⟩)) := by
  refine ⟨rfl, fun hs => ?_,
    fun hs => ⟨fun e hb => ?_, fun tx e hb hw => ?_, fun tx hb hw => ?_⟩⟩
  · simp [rawTxBroadcastHandler, hs]
  · simp [rawTxBroadcastHandler, hs, hb]
  · simp [rawTxBroadcastHandler, hs, hb, hw]
  · simp [rawTxBroadcastHandler, hs, hb, hw]

/-- Witness for `raw_broadcast_delivery`: the successful path on a concrete
PENDING row. -/
theorem raw_broadcast_delivery_witness :
    rawTxBroadcastHandler ⟨Except.ok "0xaa", Except.ok ()⟩ (some sampleRawRow) =
      ⟨Except.ok (),
       some { sampleRawRow with status := RStatus.CONFIRMED, txHash := some "0xaa" },
       [ChainEvent.broadcastRaw sampleRawRow.rawTx, ChainEvent.wait "0xaa" 1]⟩ :=
  ((raw_broadcast_delivery ⟨Except.ok "0xaa", Except.ok ()⟩ sampleRawRow).2.2
    rfl).2.2 "0xaa" rfl rfl

/-- C10: processing never reads `partiallySignedTx`: for two rows identical
except in that field, a delivery has the same outcome, makes exactly the same
chain calls (in particular the same submitted transfer: token, destination,
scaled amount, fees), and leaves stores identical except for that field; the
intake persists the supplied partially-signed payload verbatim. -/
theorem psTx_noninterference (oracle : ChainOracle) (k : Nat) (p : String)
    (r : WithdrawalRequest) (input : WithdrawalRequestInput) :
    (multiSigWorkerHandler oracle k (some (setPartiallySignedTx p r))).outcome =
        (multiSigWorkerHandler oracle k (some r)).outcome
      ∧ (multiSigWorkerHandler oracle k (some (setPartiallySignedTx p r))).trace =
        (multiSigWorkerHandler oracle k (some r)).trace
      ∧ (multiSigWorkerHandler oracle k (some (setPartiallySignedTx p r))).row =
        (multiSigWorkerHandler oracle k (some r)).row.map (setPartiallySignedTx p)
      ∧ (processNewRequest input none).map (fun w => w.partiallySignedTx) =
        Except.ok input.partially_signed_tx := by
  refine ⟨?_, ?_, ?_, rfl⟩ <;>
  · rcases hd : oracle.decimals with e | d <;>
      [skip; rcases hp : parseUnits r.amount d with _ | amt] <;>
      rcases hf : oracle.feeData with e2 | fees <;>
      rcases ht : oracle.transfer with e3 | tx <;>
      rcases hw : oracle.wait with e4 | u <;>
      by_cases hst : r.status = WStatus.COMPLETED ∨ r.status = WStatus.CANCELLED <;>
      by_cases hk : k = 0 <;>
      simp [multiSigWorkerHandler, setPartiallySignedTx, hd, hf, ht, hw, hst, hk, *]

/-- C7 (Scenario A shape): starting from a fresh PENDING_SIGNATURE row, a
delivery whose chain calls all succeed fetches the token decimals, scales the
amount, fetches a fee estimate, submits the transfer, persists BROADCASTED
with the returned hash, waits one confirmation and persists COMPLETED — the
recorded status history is PENDING_SIGNATURE, PROCESSING, BROADCASTED,
COMPLETED with exactly one entry per state, and the chain-call trace is in
exactly that order. -/
theorem happy_path_delivery (oracle : ChainOracle) (r : WithdrawalRequest)
    (d amt : Nat) (fees : FeeData) (tx : String)
    (hs : r.status = WStatus.PENDING_SIGNATURE)
    (hh : r.history = [WStatus.PENDING_SIGNATURE])
    (hd : oracle.decimals = Except.ok d)
    (hp : parseUnits r.amount d = some amt)
    (hf : oracle.feeData = Except.ok fees)
    (ht : oracle.transfer = Except.ok tx)
    (hw : oracle.wait = Except.ok ()) :
    multiSigWorkerHandler oracle 0 (some r) =
      ⟨Except.ok (),
       some { r with
          status := WStatus.COMPLETED
          txHash := some tx
          errorMessage := none
          history := [WStatus.PENDING_SIGNATURE, WStatus.PROCESSING,
            WStatus.BROADCASTED, WStatus.COMPLETED] },
       [ChainEvent.getDecimals r.tokenContractAddress, ChainEvent.getFeeData,
        ChainEvent.transfer r.tokenContractAddress r.destinationAddress amt fees,
        ChainEvent.wait tx 1]⟩ := by
  simp [multiSigWorkerHandler, hs, hh, hd, hp, hf, ht, hw]

/-- Witness for `happy_path_delivery`: Scenario A — amount "1500.00" on a
6-decimal token scales to 1500000000 minimal units and the row completes. -/
theorem happy_path_delivery_witness :
    multiSigWorkerHandler
        ⟨Except.ok 6, Except.ok ⟨2000000000, 1500000000⟩,
         Except.ok "0xbroadcast", Except.ok ()⟩ 0 (some sampleIntakeRow) =
      ⟨Except.ok (),
       some { sampleIntakeRow with
          status := WStatus.COMPLETED
          txHash := some "0xbroadcast"
          errorMessage := none
          history := [WStatus.PENDING_SIGNATURE, WStatus.PROCESSING,
            WStatus.BROADCASTED, WStatus.COMPLETED] },
       [ChainEvent.getDecimals sampleIntakeRow.tokenContractAddress,
        ChainEvent.getFeeData,
        ChainEvent.transfer sampleIntakeRow.tokenContractAddress
          sampleIntakeRow.destinationAddress 1500000000 ⟨2000000000, 1500000000⟩,
        ChainEvent.wait "0xbroadcast" 1]⟩ :=
  happy_path_delivery
    ⟨Except.ok 6, Except.ok ⟨2000000000, 1500000000⟩,
     Except.ok "0xbroadcast", Except.ok ()⟩
    sampleIntakeRow 6 1500000000 ⟨2000000000, 1500000000⟩ "0xbroadcast"
    rfl rfl rfl (by decide) rfl rfl rfl

/-- Any delivery on a present row leaves a present row whose history only
grows, never by FAILED entries; later attempts (`k ≠ 0`) never add PROCESSING
entries nor touch the error message; a first attempt on a live row clears the
error message and appends exactly one PROCESSING entry first. -/
theorem delivery_row_extend (oracle : ChainOracle) (k : Nat)
    (r : WithdrawalRequest) :
    ∃ r' t, (multiSigWorkerHandler oracle k (some r)).row = some r'
      ∧ r'.history = r.history ++ t
      ∧ WStatus.FAILED ∉ t
      ∧ (k ≠ 0 → WStatus.PROCESSING ∉ t ∧ r'.errorMessage = r.errorMessage)
      ∧ (k = 0 → ¬(r.status = WStatus.COMPLETED ∨ r.status = WStatus.CANCELLED) →
          r'.errorMessage = none
            ∧ ∃ t', t = WStatus.PROCESSING :: t' ∧ WStatus.PROCESSING ∉ t') := by
  by_cases hst : r.status = WStatus.COMPLETED ∨ r.status = WStatus.CANCELLED
  · exact ⟨r, [], by simp [multiSigWorkerHandler, hst], by simp, by simp,
      fun _ => ⟨by simp, rfl⟩, fun _ hc => absurd hst hc⟩
  · by_cases hk : k = 0
    · subst hk
      rcases hd : oracle.decimals with e | d
      · refine ⟨{ r with status := WStatus.PROCESSING, errorMessage := none, history := r.history ++ [WStatus.PROCESSING] }, [WStatus.PROCESSING],
          ?_, rfl, by decide, by simp, fun _ _ => ⟨rfl, [], rfl, by decide⟩⟩
        simp [multiSigWorkerHandler, hst, hd]
      · rcases hp : parseUnits r.amount d with _ | amt
        · refine ⟨{ r with status := WStatus.PROCESSING, errorMessage := none, history := r.history ++ [WStatus.PROCESSING] }, [WStatus.PROCESSING],
            ?_, rfl, by decide, by simp, fun _ _ => ⟨rfl, [], rfl, by decide⟩⟩
          simp [multiSigWorkerHandler, hst, hd, hp]
        · rcases hf : oracle.feeData with e | fees
          · refine ⟨{ r with status := WStatus.PROCESSING, errorMessage := none, history := r.history ++ [WStatus.PROCESSING] }, [WStatus.PROCESSING],
              ?_, rfl, by decide, by simp, fun _ _ => ⟨rfl, [], rfl, by decide⟩⟩
            simp [multiSigWorkerHandler, hst, hd, hp, hf]
          · rcases ht : oracle.transfer with e | tx
            · refine ⟨{ r with status := WStatus.PROCESSING, errorMessage := none, history := r.history ++ [WStatus.PROCESSING] }, [WStatus.PROCESSING],
                ?_, rfl, by decide, by simp, fun _ _ => ⟨rfl, [], rfl, by decide⟩⟩
              simp [multiSigWorkerHandler, hst, hd, hp, hf, ht]
            · rcases hw : oracle.wait with e | u
              · refine ⟨{ r with status := WStatus.BROADCASTED, errorMessage := none, txHash := some tx, history := r.history ++ [WStatus.PROCESSING, WStatus.BROADCASTED] },
                  [WStatus.PROCESSING, WStatus.BROADCASTED],
                  ?_, rfl, by decide, by simp,
                  fun _ _ => ⟨rfl, [WStatus.BROADCASTED], rfl, by decide⟩⟩
                simp [multiSigWorkerHandler, hst, hd, hp, hf, ht, hw]
              · refine ⟨{ r with status := WStatus.COMPLETED, errorMessage := none, txHash := some tx, history := r.history ++ [WStatus.PROCESSING, WStatus.BROADCASTED, WStatus.COMPLETED] },
                  [WStatus.PROCESSING, WStatus.BROADCASTED, WStatus.COMPLETED],
                  ?_, rfl, by decide, by simp,
                  fun _ _ => ⟨rfl, [WStatus.BROADCASTED, WStatus.COMPLETED], rfl,
                    by decide⟩⟩
                simp [multiSigWorkerHandler, hst, hd, hp, hf, ht, hw]
    · rcases hd : oracle.decimals with e | d
      · refine ⟨r, [], ?_, by simp, by simp, fun _ => ⟨by simp, rfl⟩,
          fun h0 _ => absurd h0 hk⟩
        simp [multiSigWorkerHandler, hst, hk, hd]
      · rcases hp : parseUnits r.amount d with _ | amt
        · refine ⟨r, [], ?_, by simp, by simp, fun _ => ⟨by simp, rfl⟩,
            fun h0 _ => absurd h0 hk⟩
          simp [multiSigWorkerHandler, hst, hk, hd, hp]
        · rcases hf : oracle.feeData with e | fees
          · refine ⟨r, [], ?_, by simp, by simp, fun _ => ⟨by simp, rfl⟩,
              fun h0 _ => absurd h0 hk⟩
            simp [multiSigWorkerHandler, hst, hk, hd, hp, hf]
          · rcases ht : oracle.transfer with e | tx
            · refine ⟨r, [], ?_, by simp, by simp, fun _ => ⟨by simp, rfl⟩,
                fun h0 _ => absurd h0 hk⟩
              simp [multiSigWorkerHandler, hst, hk, hd, hp, hf, ht]
            · rcases hw : oracle.wait with e | u
              · refine ⟨{ r with status := WStatus.BROADCASTED, txHash := some tx, history := r.history ++ [WStatus.BROADCASTED] },
                  [WStatus.BROADCASTED],
                  ?_, rfl, by decide, fun _ => ⟨by decide, rfl⟩,
                  fun h0 _ => absurd h0 hk⟩
                simp [multiSigWorkerHandler, hst, hk, hd, hp, hf, ht, hw]
              · refine ⟨{ r with status := WStatus.COMPLETED, txHash := some tx, history := r.history ++ [WStatus.BROADCASTED, WStatus.COMPLETED] },
                  [WStatus.BROADCASTED, WStatus.COMPLETED],
                  ?_, rfl, by decide, fun _ => ⟨by decide, rfl⟩,
                  fun h0 _ => absurd h0 hk⟩
                simp [multiSigWorkerHandler, hst, hk, hd, hp, hf, ht, hw]

/-- Iterated deliveries keep the row present and never append FAILED history
entries. -/
theorem iterDeliver_keeps (oracles : Nat → ChainOracle) :
    ∀ (n k : Nat) (r : WithdrawalRequest),
      ∃ r', iterDeliver (withdrawalDeliver oracles) k n (some r) = some r'
        ∧ r'.history.count WStatus.FAILED = r.history.count WStatus.FAILED
  | 0, _, r => ⟨r, rfl, rfl⟩
  | n + 1, k, r => by
    obtain ⟨r1, t, h1, h2, h3, -, -⟩ := delivery_row_extend (oracles k) k r
    obtain ⟨r', h5, h6⟩ := iterDeliver_keeps oracles n (k + 1) r1
    refine ⟨r', ?_, ?_⟩
    · rw [iterDeliver_succ]
      have : (withdrawalDeliver oracles k (some r)).2 = some r1 := h1
      rw [this, h5]
    · rw [h6, h2]
      simp [List.count_append, List.count_eq_zero.mpr h3]

/-- C4: when every delivery of a withdrawal job fails, the exhaustion run
leaves the row FAILED with the final attempt's error message persisted and
exactly one FAILED history entry appended, and sends exactly one alert
carrying the job identifier, the database identifier, the error message and a
total attempt count of 5. -/
theorem exhaustion_failed_alert (jobId dbId : Nat) (oracles : Nat → ChainOracle)
    (m : Nat → String) (r0 : WithdrawalRequest)
    (hf : ∀ i, i ≤ 4 →
      (withdrawalDeliver oracles i
        (iterDeliver (withdrawalDeliver oracles) 0 i (some r0))).1 =
        Except.error (m i)) :
    ∃ rF, (runWithdrawalEpisode jobId dbId oracles multiSigWorkerAttempts
        multiSigWorkerBackoffDelay (some r0)).state = some rF
      ∧ rF.status = WStatus.FAILED
      ∧ rF.errorMessage = some (m 4)
      ∧ rF.history.count WStatus.FAILED = r0.history.count WStatus.FAILED + 1
      ∧ (runWithdrawalEpisode jobId dbId oracles multiSigWorkerAttempts
          multiSigWorkerBackoffDelay (some r0)).alerts =
        [⟨"Multi-Sig Withdrawal Job Failed", jobId, dbId, 5, m 4⟩] := by
  have hrun := brokerRunAux_allFail (withdrawalDeliver oracles)
    (multiSigWorkerOnFailed jobId dbId) multiSigWorkerBackoffDelay m 4 0
    (some r0) (fun i hi => by simpa using hf i hi)
  obtain ⟨r5, h5, hcount⟩ := iterDeliver_keeps oracles 5 0 r0
  have h5' : iterDeliver (withdrawalDeliver oracles) 0 (4 + 1) (some r0) =
      some r5 := h5
  unfold runWithdrawalEpisode brokerRun
  rw [show multiSigWorkerAttempts = 4 + 1 from rfl, hrun]
  simp only [Nat.zero_add, h5']
  refine ⟨{ r5 with status := WStatus.FAILED, errorMessage := some (m 4), history := r5.history ++ [WStatus.FAILED] },
    rfl, rfl, rfl, ?_, rfl⟩
  simp [List.count_append, hcount]

/-- Witness for `exhaustion_failed_alert`: a dead RPC endpoint drives the
fresh intake row to FAILED with a single alert reporting 5 attempts. -/
theorem exhaustion_failed_alert_witness :
    ∃ rF, (runWithdrawalEpisode 1 2 (fun _ => downOracle) multiSigWorkerAttempts
        multiSigWorkerBackoffDelay (some sampleIntakeRow)).state = some rF
      ∧ rF.status = WStatus.FAILED
      ∧ rF.errorMessage = some "rpc down"
      ∧ rF.history.count WStatus.FAILED =
        sampleIntakeRow.history.count WStatus.FAILED + 1
      ∧ (runWithdrawalEpisode 1 2 (fun _ => downOracle) multiSigWorkerAttempts
          multiSigWorkerBackoffDelay (some sampleIntakeRow)).alerts =
        [⟨"Multi-Sig Withdrawal Job Failed", 1, 2, 5, "rpc down"⟩] :=
  exhaustion_failed_alert 1 2 (fun _ => downOracle) (fun _ => "rpc down")
    sampleIntakeRow (fun i hi => by
      have hc : i = 0 ∨ i = 1 ∨ i = 2 ∨ i = 3 ∨ i = 4 := by omega
      rcases hc with rfl | rfl | rfl | rfl | rfl <;> decide)

theorem take_append_one {α : Type} (l : List α) (x : α) :
    (l ++ [x]).take (l.length + 1) = l ++ [x] := by
  have h : (l ++ [x]).length = l.length + 1 := by simp
  rw [← h, List.take_length]

theorem take_append_more {α : Type} (l t : List α) (x : α) :
    ((l ++ [x]) ++ t).take (l.length + 1) = l ++ [x] := by
  have h : (l ++ [x]).length = l.length + 1 := by simp
  rw [← h, List.take_left]

/-- Deliveries after the first never change the PROCESSING audit count. -/
theorem pcount_deliver_later (oracles : Nat → ChainOracle) (k : Nat)
    (s : Option WithdrawalRequest) (hk : k ≠ 0) :
    processingCount (withdrawalDeliver oracles k s).2 = processingCount s := by
  cases s with
  | none => rfl
  | some r =>
    obtain ⟨r', t, h1, h2, -, h4, -⟩ := delivery_row_extend (oracles k) k r
    have h1' : (withdrawalDeliver oracles k (some r)).2 = some r' := h1
    rw [h1']
    simp [processingCount, h2, List.count_append,
      List.count_eq_zero.mpr (h4 hk).1]

/-- The failed listener never changes the PROCESSING audit count. -/
theorem pcount_onFailed (jobId dbId k : Nat) (e : String)
    (s : Option WithdrawalRequest) :
    processingCount (multiSigWorkerOnFailed jobId dbId k e s).1 =
      processingCount s := by
  cases s with
  | none => rfl
  | some r => simp [multiSigWorkerOnFailed, processingCount, List.count_append]

/-- A numeric measure preserved by every late delivery and by the failed
listener is preserved by any broker run starting at attempt 1 or later. -/
theorem brokerRunAux_measure {σ : Type}
    (deliver : Nat → σ → Except String Unit × σ)
    (onFailed : Nat → String → σ → σ × AlertPayload)
    (delay : Nat) (f : σ → Nat)
    (hd : ∀ k s, k ≠ 0 → f (deliver k s).2 = f s)
    (ho : ∀ k e s, f (onFailed k e s).1 = f s) :
    ∀ (rem k : Nat) (s : σ), k ≠ 0 →
      f (brokerRunAux deliver onFailed delay k rem s).state = f s
  | 0, _, _, _ => rfl
  | rem + 1, k, s, hk => by
    rw [brokerRunAux_step]
    rcases h1 : (deliver k s).1 with e | u
    · simp only [h1]
      by_cases hrem : rem = 0
      · subst hrem
        simp only [if_pos rfl]
        show f (onFailed k e (deliver k s).2).1 = f s
        rw [ho, hd _ _ hk]
      · rw [if_neg hrem]
        show f (brokerRunAux deliver onFailed delay (k + 1) rem (deliver k s).2).state = f s
        rw [brokerRunAux_measure deliver onFailed delay f hd ho rem (k + 1)
          (deliver k s).2 (Nat.succ_ne_zero k), hd _ _ hk]
    · simp only [h1]
      exact hd _ _ hk

/-- A full withdrawal episode starting from a PENDING_SIGNATURE row adds
exactly one PROCESSING entry, however many retries happen and however it
ends. -/
theorem episode_pcount (oracles : Nat → ChainOracle)
    (jobId dbId attempts delay : Nat) (r : WithdrawalRequest)
    (hs : r.status = WStatus.PENDING_SIGNATURE) (ha : 1 ≤ attempts) :
    ∀ rF, (runWithdrawalEpisode jobId dbId oracles attempts delay
        (some r)).state = some rF →
      rF.history.count WStatus.PROCESSING =
        r.history.count WStatus.PROCESSING + 1 := by
  have hlive : ¬(r.status = WStatus.COMPLETED ∨ r.status = WStatus.CANCELLED) := by
    simp [hs]
  obtain ⟨r1, t, h1, h2, -, -, h5⟩ := delivery_row_extend (oracles 0) 0 r
  obtain ⟨hem, t', ht', hpt'⟩ := h5 rfl hlive
  have h1' : (withdrawalDeliver oracles 0 (some r)).2 = some r1 := h1
  have hr1 : processingCount (some r1) =
      r.history.count WStatus.PROCESSING + 1 := by
    simp [processingCount, h2, ht', List.count_append, List.count_cons,
      List.count_eq_zero.mpr hpt']
  obtain ⟨a, rfl⟩ : ∃ a, attempts = a + 1 := ⟨attempts - 1, by omega⟩
  have key : processingCount (runWithdrawalEpisode jobId dbId oracles (a + 1)
      delay (some r)).state = r.history.count WStatus.PROCESSING + 1 := by
    unfold runWithdrawalEpisode brokerRun
    rw [brokerRunAux_step]
    rcases hout : (withdrawalDeliver oracles 0 (some r)).1 with e | u
    · simp only [hout]
      by_cases hazero : a = 0
      · subst hazero
        simp only [if_pos rfl]
        show processingCount (multiSigWorkerOnFailed jobId dbId 0 e
          (withdrawalDeliver oracles 0 (some r)).2).1 = _
        rw [pcount_onFailed, h1', hr1]
      · rw [if_neg hazero]
        show processingCount (brokerRunAux (withdrawalDeliver oracles)
          (multiSigWorkerOnFailed jobId dbId) delay 1 a
          (withdrawalDeliver oracles 0 (some r)).2).state = _
        rw [brokerRunAux_measure (withdrawalDeliver oracles)
          (multiSigWorkerOnFailed jobId dbId) delay processingCount
          (fun k s hk => pcount_deliver_later oracles k s hk)
          (fun k e s => pcount_onFailed jobId dbId k e s)
          a 1 (withdrawalDeliver oracles 0 (some r)).2 one_ne_zero, h1', hr1]
    · simp only [hout]
      show processingCount (withdrawalDeliver oracles 0 (some r)).2 = _
      rw [h1', hr1]
  intro rF hF
  rw [hF] at key
  exact key

/-- C6: the first attempt of a withdrawal job on a live row sets status
PROCESSING, clears the stored error message and appends exactly one PROCESSING
history entry; later attempts of the same job skip that step (no PROCESSING
entry, error message untouched); hence a whole processing episode starting
from a PENDING_SIGNATURE row records exactly one PROCESSING entry, whatever
the number of retries. -/
theorem single_processing_entry :
    (∀ (oracle : ChainOracle) (r : WithdrawalRequest),
        r.status ≠ WStatus.COMPLETED → r.status ≠ WStatus.CANCELLED →
        ∃ r', (multiSigWorkerHandler oracle 0 (some r)).row = some r'
          ∧ r'.errorMessage = none
          ∧ r'.history.count WStatus.PROCESSING =
              r.history.count WStatus.PROCESSING + 1
          ∧ r'.history.take (r.history.length + 1) =
              r.history ++ [WStatus.PROCESSING])
    ∧ (∀ (oracle : ChainOracle) (k : Nat) (r : WithdrawalRequest), k ≠ 0 →
        ∃ r', (multiSigWorkerHandler oracle k (some r)).row = some r'
          ∧ r'.errorMessage = r.errorMessage
          ∧ r'.history.count WStatus.PROCESSING =
              r.history.count WStatus.PROCESSING)
    ∧ (∀ (oracles : Nat → ChainOracle) (jobId dbId attempts delay : Nat)
        (r : WithdrawalRequest),
        r.status = WStatus.PENDING_SIGNATURE → 1 ≤ attempts →
        ∀ rF, (runWithdrawalEpisode jobId dbId oracles attempts delay
            (some r)).state = some rF →
          rF.history.count WStatus.PROCESSING =
            r.history.count WStatus.PROCESSING + 1) := by
  refine ⟨fun oracle r ha hb => ?_, fun oracle k r hk => ?_,
    fun oracles jobId dbId attempts delay r hs ha =>
      episode_pcount oracles jobId dbId attempts delay r hs ha⟩
  · obtain ⟨r', t, h1, h2, -, -, h5⟩ := delivery_row_extend oracle 0 r
    obtain ⟨hem, t', ht', hpt'⟩ := h5 rfl (by simp [ha, hb])
    refine ⟨r', h1, hem, ?_, ?_⟩
    · simp [h2, ht', List.count_append, List.count_cons,
        List.count_eq_zero.mpr hpt']
    · have hsplit : r.history ++ (WStatus.PROCESSING :: t') =
          (r.history ++ [WStatus.PROCESSING]) ++ t' := by simp
      rw [h2, ht', hsplit, take_append_more]
  · obtain ⟨r', t, h1, h2, -, h4, -⟩ := delivery_row_extend oracle k r
    exact ⟨r', h1, (h4 hk).2, by
      simp [h2, List.count_append, List.count_eq_zero.mpr (h4 hk).1]⟩

/-- Witness for `single_processing_entry`: under a dead RPC endpoint the
five-attempt episode on the fresh intake row ends FAILED with exactly one
PROCESSING entry in its history. -/
theorem single_processing_entry_witness :
    ({ sampleIntakeRow with
        status := WStatus.FAILED
        errorMessage := some "rpc down"
        history := [WStatus.PENDING_SIGNATURE, WStatus.PROCESSING,
          WStatus.FAILED] } : WithdrawalRequest).history.count
        WStatus.PROCESSING =
      sampleIntakeRow.history.count WStatus.PROCESSING + 1 :=
  single_processing_entry.2.2 (fun _ => downOracle) 1 2
    multiSigWorkerAttempts multiSigWorkerBackoffDelay sampleIntakeRow
    rfl (by decide)
    { sampleIntakeRow with
        status := WStatus.FAILED
        errorMessage := some "rpc down"
        history := [WStatus.PENDING_SIGNATURE, WStatus.PROCESSING,
          WStatus.FAILED] }
    (by decide)

theorem ht_concat :
    ∀ (l : List WStatus) (a x : WStatus), l.getLast? = some a →
      historyTransitions (l ++ [x]) = historyTransitions l ++ [(a, x)]
  | [], a, x, h => by simp at h
  | [b], a, x, h => by
    simp [List.getLast?] at h
    subst h
    rfl
  | b :: c :: t, a, x, h => by
    have h' : (c :: t).getLast? = some a := by
      simpa [List.getLast?_cons_cons] using h
    have e : (b :: c :: t) ++ [x] = b :: ((c :: t) ++ [x]) := rfl
    rw [e]
    show (b, c) :: historyTransitions ((c :: t) ++ [x]) =
      ((b, c) :: historyTransitions (c :: t)) ++ [(a, x)]
    rw [ht_concat (c :: t) a x h']
    rfl

/-- Appending the newly written status both to the history and to the status
field preserves audit-log well-formedness, provided the taken edge is one the
code takes. -/
theorem WFRow_append (r r' : WithdrawalRequest) (x : WStatus)
    (hh : r'.history = r.history ++ [x]) (hs : r'.status = x)
    (hWF : WFRow r) (hx : (r.status, x) ∈ codeEdges) : WFRow r' := by
  obtain ⟨h1, h2⟩ := hWF
  constructor
  · rw [hh, hs, List.getLast?_concat]
  · rw [hh]
    intro t ht
    rw [ht_concat r.history r.status x h1] at ht
    rcases List.mem_append.mp ht with ha | hb
    · exact h2 t ha
    · simp only [List.mem_singleton] at hb
      subst hb
      exact hx

/-- The failed listener preserves well-formedness of a PROCESSING or
BROADCASTED row. -/
theorem onFailed_WF (jobId dbId k : Nat) (e : String) (r : WithdrawalRequest)
    (hWF : WFRow r)
    (hPB : r.status = WStatus.PROCESSING ∨ r.status = WStatus.BROADCASTED) :
    ∃ r', (multiSigWorkerOnFailed jobId dbId k e (some r)).1 = some r'
      ∧ WFRow r' :=
  ⟨{ r with status := WStatus.FAILED, errorMessage := some e, history := r.history ++ [WStatus.FAILED] },
   rfl,
   WFRow_append r _ WStatus.FAILED rfl rfl hWF
     (by rcases hPB with h | h <;> rw [h] <;> decide)⟩

/-- One delivery on a well-formed live row (first attempt on PENDING_SIGNATURE
or a retry on PROCESSING/BROADCASTED) leaves a well-formed row that is
PROCESSING or BROADCASTED — or COMPLETED, but then only with a normal
return. -/
theorem delivery_WF (oracle : ChainOracle) (k : Nat) (r : WithdrawalRequest)
    (hWF : WFRow r)
    (hst : (k = 0 ∧ r.status = WStatus.PENDING_SIGNATURE)
        ∨ (k ≠ 0 ∧ (r.status = WStatus.PROCESSING
            ∨ r.status = WStatus.BROADCASTED))) :
    ∃ r', (multiSigWorkerHandler oracle k (some r)).row = some r'
      ∧ WFRow r'
      ∧ (r'.status = WStatus.PROCESSING ∨ r'.status = WStatus.BROADCASTED
          ∨ ((multiSigWorkerHandler oracle k (some r)).outcome = Except.ok ()
              ∧ r'.status = WStatus.COMPLETED)) := by
  have hguard : ¬(r.status = WStatus.COMPLETED ∨ r.status = WStatus.CANCELLED) := by
    rcases hst with ⟨-, h⟩ | ⟨-, h | h⟩ <;> simp [h]
  rcases hst with ⟨hk0, hPS⟩ | ⟨hk, hPB⟩
  · subst hk0
    have hWFA : WFRow { r with status := WStatus.PROCESSING, errorMessage := none, history := r.history ++ [WStatus.PROCESSING] } :=
      WFRow_append r _ WStatus.PROCESSING rfl rfl hWF (by rw [hPS]; decide)
    rcases hd : oracle.decimals with e | d
    · exact ⟨_, by simp [multiSigWorkerHandler, hguard, hd], hWFA, Or.inl rfl⟩
    · rcases hp : parseUnits r.amount d with _ | amt
      · exact ⟨_, by simp [multiSigWorkerHandler, hguard, hd, hp], hWFA,
          Or.inl rfl⟩
      · rcases hf : oracle.feeData with e | fees
        · exact ⟨_, by simp [multiSigWorkerHandler, hguard, hd, hp, hf], hWFA,
            Or.inl rfl⟩
        · rcases ht : oracle.transfer with e | tx
          · exact ⟨_, by simp [multiSigWorkerHandler, hguard, hd, hp, hf, ht],
              hWFA, Or.inl rfl⟩
          · have hWFB : WFRow { r with status := WStatus.BROADCASTED, errorMessage := none, txHash := some tx, history := (r.history ++ [WStatus.PROCESSING]) ++ [WStatus.BROADCASTED] } :=
              WFRow_append
                { r with status := WStatus.PROCESSING, errorMessage := none, history := r.history ++ [WStatus.PROCESSING] }
                _ WStatus.BROADCASTED rfl rfl hWFA
                (show (WStatus.PROCESSING, WStatus.BROADCASTED) ∈ codeEdges by decide)
            rcases hw : oracle.wait with e | u
            · exact ⟨_, by simp [multiSigWorkerHandler, hguard, hd, hp, hf, ht, hw],
                hWFB, Or.inr (Or.inl rfl)⟩
            · refine ⟨{ r with status := WStatus.COMPLETED, errorMessage := none, txHash := some tx, history := ((r.history ++ [WStatus.PROCESSING]) ++ [WStatus.BROADCASTED]) ++ [WStatus.COMPLETED] },
                by simp [multiSigWorkerHandler, hguard, hd, hp, hf, ht, hw], ?_,
                Or.inr (Or.inr ⟨by simp [multiSigWorkerHandler, hguard, hd, hp, hf, ht, hw], rfl⟩)⟩
              exact WFRow_append
                { r with status := WStatus.BROADCASTED, errorMessage := none, txHash := some tx, history := (r.history ++ [WStatus.PROCESSING]) ++ [WStatus.BROADCASTED] }
                _ WStatus.COMPLETED rfl rfl hWFB
                (show (WStatus.BROADCASTED, WStatus.COMPLETED) ∈ codeEdges by decide)
  · have hg' : ¬k = 0 := hk
    rcases hd : oracle.decimals with e | d
    · exact ⟨r, by simp [multiSigWorkerHandler, hguard, hg', hd], hWF,
        by rcases hPB with h | h <;> simp [h]⟩
    · rcases hp : parseUnits r.amount d with _ | amt
      · exact ⟨r, by simp [multiSigWorkerHandler, hguard, hg', hd, hp], hWF,
          by rcases hPB with h | h <;> simp [h]⟩
      · rcases hf : oracle.feeData with e | fees
        · exact ⟨r, by simp [multiSigWorkerHandler, hguard, hg', hd, hp, hf],
            hWF, by rcases hPB with h | h <;> simp [h]⟩
        · rcases ht : oracle.transfer with e | tx
          · exact ⟨r, by simp [multiSigWorkerHandler, hguard, hg', hd, hp, hf, ht],
              hWF, by rcases hPB with h | h <;> simp [h]⟩
          · have hWFB : WFRow { r with status := WStatus.BROADCASTED, txHash := some tx, history := r.history ++ [WStatus.BROADCASTED] } :=
              WFRow_append r _ WStatus.BROADCASTED rfl rfl hWF
                (by rcases hPB with h | h <;> rw [h] <;> decide)
            rcases hw : oracle.wait with e | u
            · exact ⟨_, by simp [multiSigWorkerHandler, hguard, hg', hd, hp, hf, ht, hw],
                hWFB, Or.inr (Or.inl rfl)⟩
            · refine ⟨{ r with status := WStatus.COMPLETED, txHash := some tx, history := (r.history ++ [WStatus.BROADCASTED]) ++ [WStatus.COMPLETED] },
                by simp [multiSigWorkerHandler, hguard, hg', hd, hp, hf, ht, hw], ?_,
                Or.inr (Or.inr ⟨by simp [multiSigWorkerHandler, hguard, hg', hd, hp, hf, ht, hw], rfl⟩)⟩
              exact WFRow_append
                { r with status := WStatus.BROADCASTED, txHash := some tx, history := r.history ++ [WStatus.BROADCASTED] }
                _ WStatus.COMPLETED rfl rfl hWFB
                (show (WStatus.BROADCASTED, WStatus.COMPLETED) ∈ codeEdges by decide)

/-- From attempt 1 on, a broker run over well-formed PROCESSING/BROADCASTED
states only produces well-formed rows. -/
theorem brokerRunAux_WF (oracles : Nat → ChainOracle) (jobId dbId delay : Nat) :
    ∀ (rem k : Nat) (s : Option WithdrawalRequest), k ≠ 0 →
      (∀ r, s = some r → WFRow r ∧ (r.status = WStatus.PROCESSING
          ∨ r.status = WStatus.BROADCASTED)) →
      ∀ rF, (brokerRunAux (withdrawalDeliver oracles)
          (multiSigWorkerOnFailed jobId dbId) delay k rem s).state = some rF →
        WFRow rF
  | 0, _, s, _, hs, rF, hF => (hs rF hF).1
  | rem + 1, k, s, hk, hs, rF, hF => by
    rw [brokerRunAux_step] at hF
    cases s with
    | none =>
      exact Option.noConfusion
        (show (none : Option WithdrawalRequest) = some rF from hF)
    | some r =>
      obtain ⟨hWFr, hPB⟩ := hs r rfl
      obtain ⟨r', h1, hWF', hcases⟩ :=
        delivery_WF (oracles k) k r hWFr (Or.inr ⟨hk, hPB⟩)
      have h1' : (withdrawalDeliver oracles k (some r)).2 = some r' := h1
      have hstPB : ∀ e, (withdrawalDeliver oracles k (some r)).1 = Except.error e →
          r'.status = WStatus.PROCESSING ∨ r'.status = WStatus.BROADCASTED := by
        intro e he
        rcases hcases with h | h | ⟨hok, -⟩
        · exact Or.inl h
        · exact Or.inr h
        · have : (withdrawalDeliver oracles k (some r)).1 =
              (multiSigWorkerHandler (oracles k) k (some r)).outcome := rfl
          rw [this, hok] at he
          cases he
      rcases hout : (withdrawalDeliver oracles k (some r)).1 with e | u
      · simp only [hout] at hF
        by_cases hrem : rem = 0
        · subst hrem
          obtain ⟨r'', h2, hWF''⟩ :=
            onFailed_WF jobId dbId k e r' hWF' (hstPB e hout)
          have hF' : (multiSigWorkerOnFailed jobId dbId k e
              (withdrawalDeliver oracles k (some r)).2).1 = some rF := hF
          rw [h1', h2] at hF'
          simp only [Option.some.injEq] at hF'
          subst hF'
          exact hWF''
        · rw [if_neg hrem] at hF
          exact brokerRunAux_WF oracles jobId dbId delay rem (k + 1)
            ((withdrawalDeliver oracles k (some r)).2) (Nat.succ_ne_zero k)
            (by
              intro rr hrr
              rw [h1'] at hrr
              simp only [Option.some.injEq] at hrr
              subst hrr
              exact ⟨hWF', hstPB e hout⟩)
            rF hF
      · simp only [hout] at hF
        rw [h1'] at hF
        simp only [Option.some.injEq] at hF
        subst hF
        exact hWF'

/-- C3 counterexample: with a chain whose confirmation wait always times out,
the five-attempt episode on a fresh intake row takes status transitions
outside the spec's graph (BROADCASTED → BROADCASTED re-broadcasts and a final
BROADCASTED → FAILED), so not every taken transition is a spec edge. -/
theorem transition_graph_cex :
    (runWithdrawalEpisode 1 1 (fun _ => waitFailOracle) multiSigWorkerAttempts
        multiSigWorkerBackoffDelay (some sampleIntakeRow)).state.map
      (fun r => (historyTransitions r.history).all fun t => decide (t ∈ specEdges)) =
    some false := by decide

/-- C3 amended: every status transition taken on a single-lineage row (one
intake, at most one cancel, one job episode) is an edge of the spec graph
extended with BROADCASTED → BROADCASTED (re-broadcast on retry after a failed
confirmation wait) and BROADCASTED → FAILED (exhaustion after broadcast):
episodes and cancels preserve `WFRow`, whose transition set is `codeEdges`. -/
theorem transition_graph_amended :
    (∀ (oracles : Nat → ChainOracle) (jobId dbId attempts delay : Nat)
        (r : WithdrawalRequest),
        (r.status = WStatus.PENDING_SIGNATURE ∨ r.status = WStatus.CANCELLED) →
        WFRow r →
        ∀ rF, (runWithdrawalEpisode jobId dbId oracles attempts delay
            (some r)).state = some rF → WFRow rF)
    ∧ (∀ r : WithdrawalRequest, WFRow r →
        ∀ rF, (cancelRequest (some r)).2 = some rF → WFRow rF) := by
  constructor
  · intro oracles jobId dbId attempts delay r hs hWF rF hF
    cases attempts with
    | zero =>
      have hF' : (some r : Option WithdrawalRequest) = some rF := hF
      simp only [Option.some.injEq] at hF'
      subst hF'
      exact hWF
    | succ a =>
      unfold runWithdrawalEpisode brokerRun at hF
      rw [brokerRunAux_step] at hF
      rcases hs with hPS | hCan
      · obtain ⟨r', h1, hWF', hcases⟩ :=
          delivery_WF (oracles 0) 0 r hWF (Or.inl ⟨rfl, hPS⟩)
        have h1' : (withdrawalDeliver oracles 0 (some r)).2 = some r' := h1
        have hstPB : ∀ e,
            (withdrawalDeliver oracles 0 (some r)).1 = Except.error e →
            r'.status = WStatus.PROCESSING ∨ r'.status = WStatus.BROADCASTED := by
          intro e he
          rcases hcases with h | h | ⟨hok, -⟩
          · exact Or.inl h
          · exact Or.inr h
          · have hq : (withdrawalDeliver oracles 0 (some r)).1 =
                (multiSigWorkerHandler (oracles 0) 0 (some r)).outcome := rfl
            rw [hq, hok] at he
            cases he
        rcases hout : (withdrawalDeliver oracles 0 (some r)).1 with e | u
        · simp only [hout] at hF
          by_cases ha0 : a = 0
          · subst ha0
            obtain ⟨r'', h2, hWF''⟩ :=
              onFailed_WF jobId dbId 0 e r' hWF' (hstPB e hout)
            have hF' : (multiSigWorkerOnFailed jobId dbId 0 e
                (withdrawalDeliver oracles 0 (some r)).2).1 = some rF := hF
            rw [h1', h2] at hF'
            simp only [Option.some.injEq] at hF'
            subst hF'
            exact hWF''
          · rw [if_neg ha0] at hF
            exact brokerRunAux_WF oracles jobId dbId delay a 1
              ((withdrawalDeliver oracles 0 (some r)).2) one_ne_zero
              (by
                intro rr hrr
                rw [h1'] at hrr
                simp only [Option.some.injEq] at hrr
                subst hrr
                exact ⟨hWF', hstPB e hout⟩)
              rF hF
        · simp only [hout] at hF
          rw [h1'] at hF
          simp only [Option.some.injEq] at hF
          subst hF
          exact hWF'
      · have hdel : withdrawalDeliver oracles 0 (some r) =
            (Except.ok (), some r) := by
          simp [withdrawalDeliver, multiSigWorkerHandler, hCan]
        simp only [hdel] at hF
        have hF' : (some r : Option WithdrawalRequest) = some rF := hF
        simp only [Option.some.injEq] at hF'
        subst hF'
        exact hWF
  · intro r hWF rF hF
    by_cases hs : r.status = WStatus.PENDING_SIGNATURE
    · have hc : cancelRequest (some r) =
          (Except.ok { r with status := WStatus.CANCELLED, history := r.history ++ [WStatus.CANCELLED] },
           some { r with status := WStatus.CANCELLED, history := r.history ++ [WStatus.CANCELLED] }) := by
        simp [cancelRequest, hs]
      rw [hc] at hF
      simp only [Option.some.injEq] at hF
      subst hF
      exact WFRow_append r _ WStatus.CANCELLED rfl rfl hWF (by rw [hs]; decide)
    · have hc : (cancelRequest (some r)).2 = some r := by
        simp [cancelRequest, hs]
      rw [hc] at hF
      simp only [Option.some.injEq] at hF
      subst hF
      exact hWF

/-- Witness for `transition_graph_amended`: the row left by a successful
cancel of the fresh intake row is well-formed. -/
theorem transition_graph_amended_witness : WFRow sampleCancelledRow :=
  transition_graph_amended.2 sampleIntakeRow (by decide) sampleCancelledRow
    (by decide)
